import Mathlib

/-!
Verification development for the hevy-sync repository.

The two components under scrutiny are

* `src/fit_generator.py` — `FitGenerator.generate_strength_activity_fit`,
  which turns a Hevy workout dictionary into a sequence of FIT messages and
  writes them to a file, and
* `src/sync_app.py` — the synchronization pass (`main`) together with the
  watermark helpers `get_last_sync_date` / `set_last_sync_date`.

Instants are modelled as integer counts of whole seconds.  An ISO-8601
datetime string is modelled by the civil fields it denotes plus an optional
UTC offset; `parseIso` is an executable model of `datetime.fromisoformat`
restricted to the `YYYY-MM-DDTHH:MM:SS` + (`Z` | `+HH:MM` | `-HH:MM` | none)
shapes that this repository produces and consumes, for years ≥ 1970.
-/

deriving instance DecidableEq for Except

namespace HevySync

/-- Civil calendar: leap-year test (proleptic Gregorian, as in `datetime`). -/
def isLeap (y : Nat) : Bool := y % 4 == 0 && (y % 100 != 0 || y % 400 == 0)

/-- Number of days of month `m` (1..12) in year `y`. -/
def daysInMonth (y m : Nat) : Nat :=
  if m = 2 then (if isLeap y then 29 else 28)
  else if m = 4 ∨ m = 6 ∨ m = 9 ∨ m = 11 then 30
  else 31

/-- Number of days in year `y`. -/
def daysInYear (y : Nat) : Nat := if isLeap y then 366 else 365

/-- Days from 1970-01-01 to `y`-01-01 (for `y ≥ 1970`). -/
def daysBeforeYear (y : Nat) : Int :=
  ((List.range (y - 1970)).map (fun i => (daysInYear (1970 + i) : Int))).sum

/-- Days from `y`-01-01 to `y`-`m`-01. -/
def daysBeforeMonth (y m : Nat) : Nat :=
  ((List.range (m - 1)).map (fun i => daysInMonth y (i + 1))).sum

/-- Days from 1970-01-01 to `y`-`m`-`d` (for dates at or after 1970-01-01). -/
def civilDays (y m d : Nat) : Int :=
  daysBeforeYear y + (daysBeforeMonth y m : Int) + ((d - 1 : Nat) : Int)

/-- A parsed ISO-8601 datetime: the civil clock fields and the optional UTC
offset (in seconds) carried by the string.  A `tz = none` value models a
naive `datetime`. -/
structure IsoDatetime where
  year : Nat
  month : Nat
  day : Nat
  hour : Nat
  minute : Nat
  second : Nat
  tz : Option Int
deriving DecidableEq, Repr

/-- The naive clock reading of a datetime, as seconds since
1970-01-01T00:00:00 read as if the fields were UTC.  This ignores any
offset; it models what `datetime.replace(tzinfo=timezone.utc)` makes of the
value. -/
def IsoDatetime.base (d : IsoDatetime) : Int :=
  civilDays d.year d.month d.day * 86400 +
    ((d.hour * 3600 + d.minute * 60 + d.second : Nat) : Int)

/-- The absolute instant denoted by an aware datetime (seconds since the
Unix epoch): the clock reading minus the carried UTC offset.  For a naive
datetime the offset defaults to 0, which is meaningful only after the
tz-normalization performed by the code under verification. -/
def IsoDatetime.instant (d : IsoDatetime) : Int := d.base - d.tz.getD 0

/-- Consume exactly `n` decimal digits, accumulating their value. -/
def parseDigitsAux : Nat → List Char → Nat → Option (Nat × List Char)
  | 0, cs, acc => some (acc, cs)
  | _ + 1, [], _ => none
  | n + 1, c :: cs, acc =>
      if c.isDigit then parseDigitsAux n cs (acc * 10 + (c.toNat - 48)) else none

/-- Consume one expected character. -/
def expectChar (c : Char) : List Char → Option (List Char)
  | [] => none
  | d :: cs => if d = c then some cs else none

/-- Parse the trailing timezone designator: empty (naive), `Z`, or
`±HH:MM`. -/
def parseTz : List Char → Option (Option Int)
  | [] => some none
  | ['Z'] => some (some 0)
  | c :: cs =>
    if c = '+' ∨ c = '-' then
      match parseDigitsAux 2 cs 0 with
      | none => none
      | some (hh, cs2) =>
        match expectChar ':' cs2 with
        | none => none
        | some cs3 =>
          match parseDigitsAux 2 cs3 0 with
          | none => none
          | some (mm, cs4) =>
            if cs4 = [] ∧ hh ≤ 23 ∧ mm ≤ 59 then
              some (some ((if c = '+' then 1 else -1) * ((hh * 3600 + mm * 60 : Nat) : Int)))
            else none
    else none

/-- Executable model of `datetime.fromisoformat`, restricted to the
`YYYY-MM-DDTHH:MM:SS[Z|±HH:MM]` strings this repository exchanges and to
years ≥ 1970.  `none` models the `ValueError` raised on malformed input. -/
def parseIso (s : String) : Option IsoDatetime := do
  let cs := s.toList
  let (y, cs) ← parseDigitsAux 4 cs 0
  let cs ← expectChar '-' cs
  let (mo, cs) ← parseDigitsAux 2 cs 0
  let cs ← expectChar '-' cs
  let (dy, cs) ← parseDigitsAux 2 cs 0
  let cs ← expectChar 'T' cs
  let (hr, cs) ← parseDigitsAux 2 cs 0
  let cs ← expectChar ':' cs
  let (mi, cs) ← parseDigitsAux 2 cs 0
  let cs ← expectChar ':' cs
  let (sec, cs) ← parseDigitsAux 2 cs 0
  let tz ← parseTz cs
  if 1970 ≤ y ∧ 1 ≤ mo ∧ mo ≤ 12 ∧ 1 ≤ dy ∧ dy ≤ daysInMonth y mo ∧
      hr ≤ 23 ∧ mi ≤ 59 ∧ sec ≤ 59 then
    some ⟨y, mo, dy, hr, mi, sec, tz⟩
  else none

/-- The Garmin FIT epoch 1989-12-31T00:00:00 UTC, as seconds since the Unix
epoch (`garmin_epoch` in `fit_generator.py`, line 41). -/
def garminEpochUnix : Int := 631065600

/-! ## Hevy workout data model

The shape of the dictionaries handed to `FitGenerator` and to the sync
loop (`src/hevy_client.py` and §6 of the documentation): optional fields
are `Option`-typed because `dict.get` yields `None` when they are absent. -/

/-- One set of an exercise.  `reps` and `weight_lbs` are carried by the
data but — notably — never read by `generate_strength_activity_fit`. -/
structure SetData where
  reps : Option Int
  weight_lbs : Option Int
  duration_seconds : Option Int
deriving DecidableEq, Repr

/-- One exercise: a title and its list of sets. -/
structure ExerciseData where
  exercise_title : String
  sets : List SetData
deriving DecidableEq, Repr

/-- One fetched workout dictionary.  `start_time`/`end_time` are `Option`
because `workout.get('start_time')` in `sync_app.py` returns `None` when
the key is absent (and `hevy_workout_data['start_time']` in
`fit_generator.py` then raises `KeyError`). -/
structure WorkoutData where
  title : String
  start_time : Option String
  end_time : Option String
  exercises : List ExerciseData
deriving DecidableEq, Repr

/-! ## FIT messages

The subset of `fit_tool` message types that
`generate_strength_activity_fit` emits, with exactly the fields the code
assigns (lines 59-134 of `fit_generator.py`). -/

/-- `FileType` values used by the generator. -/
inductive FileType | activity
deriving DecidableEq, Repr

/-- `Manufacturer` values used by the generator. -/
inductive Manufacturer | garmin
deriving DecidableEq, Repr

/-- `Sport` values used by the generator (the code also assigns
`Sport.GENERIC` to the sub-sport field). -/
inductive Sport | strengthTraining | generic
deriving DecidableEq, Repr

/-- `Event` values used by the generator. -/
inductive Event | timer | session
deriving DecidableEq, Repr

/-- `EventType` values used by the generator. -/
inductive EventType | start | stop
deriving DecidableEq, Repr

/-- Fields assigned to the `FileIdMessage` (lines 60-66). -/
structure FileIdMessage where
  type : FileType
  manufacturer : Manufacturer
  product : Nat
  serialNumber : Nat
  timeCreated : Int
deriving DecidableEq, Repr

/-- Fields assigned to the `SessionMessage` (lines 69-86), in assignment
order. -/
structure SessionMessage where
  startTime : Int
  startPositionLat : Int
  startPositionLong : Int
  totalElapsedTime : Int
  totalTimerTime : Int
  sport : Sport
  subSport : Sport
  totalCalories : Int
  avgHeartRate : Int
  maxHeartRate : Int
  totalDistance : Int
  numLaps : Int
  timestamp : Int
  messageIndex : Nat
  event : Event
  eventType : EventType
deriving DecidableEq, Repr

/-- Fields assigned to an `EventMessage` (lines 89-99). -/
structure EventMessage where
  timestamp : Int
  event : Event
  eventType : EventType
deriving DecidableEq, Repr

/-- Fields assigned to a `RecordMessage`.  The per-exercise records set
`heart_rate` and `power` (to 0); the trailing record leaves them unset,
hence the `Option` fields (lines 112-117 vs 130-134). -/
structure RecordMessage where
  timestamp : Int
  distance : Int
  calories : Int
  heartRate : Option Int
  power : Option Int
deriving DecidableEq, Repr

/-- A FIT message, tagged by kind, in the order the builder serializes
them. -/
inductive Msg
  | fileId (m : FileIdMessage)
  | session (m : SessionMessage)
  | event (m : EventMessage)
  | record (m : RecordMessage)
deriving DecidableEq, Repr

/-- The timestamp field of a message (`time_created` for the file-identity
message). -/
def msgTime : Msg → Int
  | .fileId m => m.timeCreated
  | .session m => m.timestamp
  | .event m => m.timestamp
  | .record m => m.timestamp

/-- Whether a message is a Record. -/
def isRecord : Msg → Bool
  | .record _ => true
  | _ => false

/-! ## FitGenerator.generate_strength_activity_fit (fit_generator.py) -/

/-- Lines 44-47: a parsed datetime with no tzinfo is stamped UTC; an aware
one is left alone. -/
def ensureUTC (d : IsoDatetime) : IsoDatetime :=
  match d.tz with
  | none => { d with tz := some 0 }
  | some _ => d

/-- The duration charged to one set: `s.get('duration_seconds', 60)`
(line 123). -/
def setDuration (s : SetData) : Int := s.duration_seconds.getD 60

/-- The duration charged to one exercise: the sum of its set durations
(line 123). -/
def exerciseDuration (e : ExerciseData) : Int := (e.sets.map setDuration).sum

/-- Total duration accumulated over a list of exercises: the final value of
`current_timestamp_offset` (lines 106-124). -/
def totalDuration (exs : List ExerciseData) : Int := (exs.map exerciseDuration).sum

/-- The FIT timestamp of a parsed datetime: seconds from the Garmin epoch
to the (tz-normalized) instant, as computed on lines 49-50. -/
def fitSeconds (d : IsoDatetime) : Int := (ensureUTC d).instant - garminEpochUnix

/-- A per-exercise record (lines 112-118): heart rate and power are set
to 0. -/
def exerciseRecord (t : Int) : Msg := .record ⟨t, 0, 0, some 0, some 0⟩

/-- The trailing record (lines 130-134): heart rate and power left unset. -/
def trailingRecord (t : Int) : Msg := .record ⟨t, 0, 0, none, none⟩

/-- The per-exercise record loop (lines 106-124): starting from offset
`off`, emit one record per exercise at `fitS + offset` and advance the
offset by the exercise duration. -/
def recordsAux (fitS : Int) : Int → List ExerciseData → List Msg
  | _, [] => []
  | off, e :: rest => exerciseRecord (fitS + off) :: recordsAux fitS (off + exerciseDuration e) rest

/-- All records the generator emits (lines 106-134): the per-exercise
records, then the trailing record when the exercise list is empty (falsy)
or the accumulated offset stops short of the session end (line 129). -/
def recordsList (fitS fitE : Int) (exs : List ExerciseData) : List Msg :=
  recordsAux fitS 0 exs ++
    (if exs.isEmpty || fitS + totalDuration exs < fitE then [trailingRecord fitE] else [])

/-- The full message sequence built by `builder.add` calls, in order
(lines 59-134): FileIdMessage, SessionMessage, the two EventMessages
(timer start, then timer stop), then the records. -/
def generateFromParsed (sd ed : IsoDatetime) (exs : List ExerciseData) : List Msg :=
  let fitS := fitSeconds sd
  let fitE := fitSeconds ed
  let elapsed := fitE - fitS
  [ .fileId ⟨FileType.activity, Manufacturer.garmin, 12345, 305419896, fitS⟩,
    .session ⟨fitS, 0, 0, elapsed, elapsed, Sport.strengthTraining, Sport.generic,
      Int.tdiv (elapsed * 6) 60, 0, 0, 0, 1, fitE, 0, Event.session, EventType.stop⟩,
    .event ⟨fitS, Event.timer, EventType.start⟩,
    .event ⟨fitE, Event.timer, EventType.stop⟩ ] ++
  recordsList fitS fitE exs

/-- Zero-pad a number to two digits (`strftime`). -/
def pad2 (n : Nat) : String := if n < 10 then "0" ++ toString n else toString n

/-- Format a year (4 digits for the years ≥ 1970 in the model's domain). -/
def pad4 (n : Nat) : String := toString n

/-- The output file name `hevy_strength_workout_%Y%m%d_%H%M%S.fit`
(line 140), formatted from the (tz-irrelevant) clock fields of the start
datetime. -/
def fitFileName (d : IsoDatetime) : String :=
  "hevy_strength_workout_" ++ pad4 d.year ++ pad2 d.month ++ pad2 d.day ++ "_" ++
    pad2 d.hour ++ pad2 d.minute ++ pad2 d.second ++ ".fit"

/-- The message sequence produced for a workout dictionary, or the
exception the Python code raises: `KeyError` when `start_time`/`end_time`
is absent, `ValueError` when `fromisoformat` rejects it (lines 37-38). -/
def generateMsgs (w : WorkoutData) : Except String (List Msg) :=
  match w.start_time, w.end_time with
  | some ss, some es =>
    match parseIso ss, parseIso es with
    | some sd, some ed => .ok (generateFromParsed sd ed w.exercises)
    | _, _ => .error "ValueError: invalid isoformat string"
  | _, _ => .error "KeyError"

/-- A flat model of the files on disk: path/content pairs in creation
order. -/
abbrev FileSys := List (String × List Msg)

/-- `generate_strength_activity_fit(hevy_workout_data, output_dir)`
(lines 18-145): builds the message sequence, writes it to
`output_dir/<fitFileName>`, and returns the PATH of the written file
together with the grown file system.  Exceptions propagate as `.error`. -/
def generate_strength_activity_fit (w : WorkoutData) (output_dir : String)
    (fs : FileSys) : Except String (String × FileSys) :=
  match w.start_time, w.end_time with
  | some ss, some es =>
    match parseIso ss, parseIso es with
    | some sd, some ed =>
      let msgs := generateFromParsed sd ed w.exercises
      let path := output_dir ++ "/" ++ fitFileName sd
      .ok (path, fs ++ [(path, msgs)])
    | _, _ => .error "ValueError: invalid isoformat string"
  | _, _ => .error "KeyError"

/-- Whether an `Except` result is a success. -/
def isOkB : Except String (List Msg) → Bool
  | .ok _ => true
  | .error _ => false

/-! ## sync_app.py: the watermark and the synchronization pass

A workout's `start_time` string is interpreted by
`datetime.fromisoformat(s).replace(tzinfo=timezone.utc)` (line 67): the
clock fields are read as UTC and any offset carried by the string is
DISCARDED — unlike the generator, which replaces the tzinfo only when it
is absent.  Hence the sync side works with `IsoDatetime.base`. -/

/-- `get_last_sync_date` (lines 13-25): parse the stored one-line
timestamp, reading it as UTC; on an absent file, empty content or a
`ValueError`, fall back to `now - 30 days`. -/
def get_last_sync_date (content : Option String) (now : Int) : Int :=
  match content with
  | none => now - 30 * 86400
  | some s =>
    if s = "" then now - 30 * 86400
    else
      match parseIso s with
      | some d => d.base
      | none => now - 30 * 86400

/-- The filter of line 68: a workout is accepted (not skipped) exactly when
its start instant is strictly greater than the watermark read at pass
start. -/
def accept (t W : Int) : Bool := if t ≤ W then false else true

/-- One iteration of the `for workout in workouts_to_sync` loop
(lines 63-95), restricted to the state that survives the iteration: the
`latest_workout_time` accumulator and the list of workouts that reach the
encode/upload block.  A falsy `start_time` (absent key or empty string)
bypasses the filter entirely; an unparsable one is skipped via `continue`;
a parsable one is compared against the watermark, and an accepted one
raises the accumulator BEFORE encoding is attempted (lines 73-74). -/
def stepWorkout (W : Int) (st : Int × List WorkoutData) (w : WorkoutData) :
    Int × List WorkoutData :=
  match w.start_time with
  | none => (st.1, st.2 ++ [w])
  | some s =>
    if s = "" then (st.1, st.2 ++ [w])
    else
      match parseIso s with
      | none => st
      | some d => if accept d.base W then (max st.1 d.base, st.2 ++ [w]) else st

/-- One full pass of `main` (lines 54-99), as a function of the watermark
`W` read at pass start, the `current_time` captured on line 42, and the
fetched workout list.  Returns the watermark stored at pass end and the
list of workouts attempted for encode/upload.  An empty fetch stores
`current_time` and processes nothing (lines 54-57); otherwise the loop
runs from `latest_workout_time = W` and the stored value is the final
accumulator plus one second (line 99). -/
def runPass (W now : Int) (ws : List WorkoutData) : Int × List WorkoutData :=
  if ws = [] then (now, [])
  else
    let r := ws.foldl (stepWorkout W) (W, [])
    (r.1 + 1, r.2)

/-- The accepted start instant carried by a `start_time` field, if any:
`none` for an absent key, an empty string, or an unparsable string. -/
def startField : Option String → Option Int
  | none => none
  | some s => if s = "" then none else (parseIso s).map (fun d => d.base)

/-- The start instants of the workouts of a batch that the watermark filter
accepts. -/
def acceptedStarts (W : Int) (ws : List WorkoutData) : List Int :=
  ws.filterMap (fun w =>
    match startField w.start_time with
    | none => none
    | some t => if accept t W then some t else none)

/-- The spec's `next_watermark(current, accepted_sessions)` formula:
`max(current, max start over accepted) + 1 second`. -/
def nextWatermark (W : Int) (starts : List Int) : Int := starts.foldl max W + 1

/-- The effect of one loop iteration on the `latest_workout_time`
accumulator alone, as a function of the `start_time` field. -/
def latestStep (W : Int) (lat : Int) : Option String → Int
  | none => lat
  | some s =>
    if s = "" then lat
    else
      match parseIso s with
      | none => lat
      | some d => if accept d.base W then max lat d.base else lat

/-- The accepted start instant contributed by a `start_time` field, if
any. -/
def accFilter (W : Int) (o : Option String) : Option Int :=
  match startField o with
  | none => none
  | some t => if accept t W then some t else none

/-! ## Helper lemmas -/

lemma accept_true_iff (t W : Int) : accept t W = true ↔ W < t := by
  unfold accept; split <;> simp <;> omega

lemma accept_false_iff (t W : Int) : accept t W = false ↔ t ≤ W := by
  unfold accept; split <;> simp <;> omega

lemma acceptedStarts_eq (W : Int) (ws : List WorkoutData) :
    acceptedStarts W ws = ws.filterMap (fun w => accFilter W w.start_time) := rfl

lemma stepWorkout_fst (W : Int) (st : Int × List WorkoutData) (w : WorkoutData) :
    (stepWorkout W st w).1 = latestStep W st.1 w.start_time := by
  cases hs : w.start_time with
  | none => simp [stepWorkout, latestStep, hs]
  | some s =>
    by_cases he : s = ""
    · simp [stepWorkout, latestStep, hs, he]
    · cases hp : parseIso s with
      | none => simp [stepWorkout, latestStep, hs, he, hp]
      | some d =>
        by_cases ha : accept d.base W <;> simp [stepWorkout, latestStep, hs, he, hp, ha]

lemma foldl_stepWorkout_fst (W : Int) :
    ∀ (ws : List WorkoutData) (st : Int × List WorkoutData),
      (ws.foldl (stepWorkout W) st).1 =
        ws.foldl (fun lat w => latestStep W lat w.start_time) st.1
  | [], _ => rfl
  | w :: ws, st => by
    simp only [List.foldl_cons]
    rw [foldl_stepWorkout_fst W ws (stepWorkout W st w), stepWorkout_fst]

lemma latestStep_eq_accFilter (W lat : Int) (o : Option String) :
    latestStep W lat o =
      match accFilter W o with
      | none => lat
      | some t => max lat t := by
  cases o with
  | none => rfl
  | some s =>
    by_cases he : s = ""
    · simp [latestStep, accFilter, startField, he]
    · cases hp : parseIso s with
      | none => simp [latestStep, accFilter, startField, he, hp]
      | some d =>
        by_cases ha : accept d.base W <;>
          simp [latestStep, accFilter, startField, he, hp, ha]

lemma foldl_latestStep_eq (W : Int) :
    ∀ (ws : List WorkoutData) (init : Int),
      ws.foldl (fun lat w => latestStep W lat w.start_time) init =
        (acceptedStarts W ws).foldl max init
  | [], _ => rfl
  | w :: ws, init => by
    simp only [List.foldl_cons, acceptedStarts_eq, List.filterMap_cons]
    cases hf : accFilter W w.start_time with
    | none =>
      rw [latestStep_eq_accFilter, hf]
      exact foldl_latestStep_eq W ws init
    | some t =>
      rw [latestStep_eq_accFilter, hf]
      simp only [List.foldl_cons]
      exact foldl_latestStep_eq W ws (max init t)

/-- The stored watermark of a non-empty pass is exactly the spec's
`next_watermark` formula over the accepted start instants. -/
lemma runPass_fst (W now : Int) (ws : List WorkoutData) (h : ws ≠ []) :
    (runPass W now ws).1 = nextWatermark W (acceptedStarts W ws) := by
  simp only [runPass, if_neg h, nextWatermark]
  rw [foldl_stepWorkout_fst, foldl_latestStep_eq]

lemma le_foldl_max : ∀ (l : List Int) (a : Int), a ≤ l.foldl max a
  | [], a => le_refl a
  | b :: l, a => le_trans (le_max_left a b) (le_foldl_max l (max a b))

lemma mem_le_foldl_max : ∀ (l : List Int) (a t : Int), t ∈ l → t ≤ l.foldl max a
  | [], _, t, h => absurd h (List.not_mem_nil t)
  | b :: l, a, t, h => by
    rcases List.mem_cons.mp h with rfl | h'
    · exact le_trans (le_max_right a t) (le_foldl_max l (max a t))
    · exact mem_le_foldl_max l (max a b) t h'

lemma totalDuration_cons (e : ExerciseData) (exs : List ExerciseData) :
    totalDuration (e :: exs) = exerciseDuration e + totalDuration exs := by
  simp [totalDuration]

lemma totalDuration_nonneg {exs : List ExerciseData}
    (h : ∀ e ∈ exs, 0 ≤ exerciseDuration e) : 0 ≤ totalDuration exs := by
  refine List.sum_nonneg ?_
  intro x hx
  rcases List.mem_map.mp hx with ⟨e, he, rfl⟩
  exact h e he

lemma totalDuration_dropLast_le :
    ∀ (exs : List ExerciseData), (∀ e ∈ exs, 0 ≤ exerciseDuration e) →
      totalDuration exs.dropLast ≤ totalDuration exs
  | [], _ => le_refl _
  | [e], h => by
    have := h e (List.mem_cons_self e [])
    simp [totalDuration]
    omega
  | e :: e' :: rest, h => by
    have ih := totalDuration_dropLast_le (e' :: rest)
      (fun x hx => h x (List.mem_cons_of_mem e hx))
    rw [List.dropLast_cons₂, totalDuration_cons, totalDuration_cons]
    omega

lemma recordsAux_ne_nil (fitS off : Int) (e : ExerciseData) (rest : List ExerciseData) :
    recordsAux fitS off (e :: rest) ≠ [] := by simp [recordsAux]

lemma isRecord_recordsAux (fitS : Int) :
    ∀ (exs : List ExerciseData) (off : Int), ∀ m ∈ recordsAux fitS off exs, isRecord m = true
  | [], _, m, hm => absurd hm (List.not_mem_nil m)
  | e :: rest, off, m, hm => by
    rw [recordsAux] at hm
    rcases List.mem_cons.mp hm with rfl | hm'
    · rfl
    · exact isRecord_recordsAux fitS rest (off + exerciseDuration e) m hm'

lemma isRecord_recordsList (fitS fitE : Int) (exs : List ExerciseData) :
    ∀ m ∈ recordsList fitS fitE exs, isRecord m = true := by
  intro m hm
  unfold recordsList at hm
  rcases List.mem_append.mp hm with h | h
  · exact isRecord_recordsAux fitS exs 0 m h
  · split at h
    · rcases List.mem_singleton.mp h with rfl
      rfl
    · exact absurd h (List.not_mem_nil m)

lemma chain_recordsAux (fitS : Int) :
    ∀ (exs : List ExerciseData) (off : Int), (∀ e ∈ exs, 0 ≤ exerciseDuration e) →
      List.Chain' (fun a b => msgTime a ≤ msgTime b) (recordsAux fitS off exs)
  | [], _, _ => List.chain'_nil
  | e :: rest, off, h => by
    rw [recordsAux]
    refine List.chain'_cons'.mpr ⟨?_, chain_recordsAux fitS rest (off + exerciseDuration e)
      (fun x hx => h x (List.mem_cons_of_mem e hx))⟩
    intro y hy
    cases rest with
    | nil => simp [recordsAux] at hy
    | cons e' rest' =>
      rw [recordsAux] at hy
      simp only [List.head?_cons, Option.mem_def, Option.some.injEq] at hy
      subst hy
      have := h e (List.mem_cons_self e _)
      simp [exerciseRecord, msgTime]
      omega

lemma bound_recordsAux (fitS : Int) :
    ∀ (exs : List ExerciseData) (off : Int), (∀ e ∈ exs, 0 ≤ exerciseDuration e) →
      ∀ m ∈ recordsAux fitS off exs, msgTime m ≤ fitS + off + totalDuration exs
  | [], _, _, m, hm => absurd hm (List.not_mem_nil m)
  | e :: rest, off, h, m, hm => by
    rw [recordsAux] at hm
    have h0 : 0 ≤ exerciseDuration e := h e (List.mem_cons_self e _)
    have h1 : 0 ≤ totalDuration rest :=
      totalDuration_nonneg (fun x hx => h x (List.mem_cons_of_mem e hx))
    rcases List.mem_cons.mp hm with rfl | hm'
    · rw [totalDuration_cons]
      simp [exerciseRecord, msgTime]
      omega
    · have := bound_recordsAux fitS rest (off + exerciseDuration e)
        (fun x hx => h x (List.mem_cons_of_mem e hx)) m hm'
      rw [totalDuration_cons]
      omega

lemma getLast?_cons_of_ne_nil {α : Type} (a : α) {l : List α} (h : l ≠ []) :
    (a :: l).getLast? = l.getLast? := by
  cases l with
  | nil => exact absurd rfl h
  | cons b l' => exact List.getLast?_cons_cons

lemma getLast_recordsAux (fitS : Int) :
    ∀ (exs : List ExerciseData) (off : Int), exs ≠ [] →
      (recordsAux fitS off exs).getLast? =
        some (exerciseRecord (fitS + off + totalDuration exs.dropLast))
  | [], _, h => absurd rfl h
  | [e], off, _ => by
    simp [recordsAux, totalDuration]
  | e :: e' :: rest, off, _ => by
    rw [recordsAux, getLast?_cons_of_ne_nil _ (recordsAux_ne_nil fitS _ e' rest),
      getLast_recordsAux fitS (e' :: rest) (off + exerciseDuration e) (by simp)]
    have : fitS + (off + exerciseDuration e) + totalDuration (e' :: rest).dropLast =
        fitS + off + totalDuration (e :: e' :: rest).dropLast := by
      rw [List.dropLast_cons₂, totalDuration_cons]
      omega
    rw [this]

lemma chain_recordsList (fitS fitE : Int) (exs : List ExerciseData)
    (h : ∀ e ∈ exs, 0 ≤ exerciseDuration e) :
    List.Chain' (fun a b => msgTime a ≤ msgTime b) (recordsList fitS fitE exs) := by
  unfold recordsList
  by_cases hc : (exs.isEmpty || decide (fitS + totalDuration exs < fitE)) = true
  · rw [if_pos hc]
    cases exs with
    | nil => simp [recordsAux]
    | cons e rest =>
      refine List.Chain'.append (chain_recordsAux fitS _ 0 h) (by simp) ?_
      intro x hx y hy
      simp only [List.head?_cons, Option.mem_def, Option.some.injEq] at hy
      subst hy
      rw [getLast_recordsAux fitS _ 0 (by simp), Option.mem_def, Option.some.injEq] at hx
      subst hx
      have h2 : totalDuration (e :: rest).dropLast ≤ totalDuration (e :: rest) :=
        totalDuration_dropLast_le _ h
      have h3 : fitS + totalDuration (e :: rest) < fitE := by
        simp only [List.isEmpty_cons, Bool.false_or, decide_eq_true_eq] at hc
        exact hc
      simp [exerciseRecord, trailingRecord, msgTime]
      omega
  · rw [if_neg hc]
    simp only [List.append_nil]
    exact chain_recordsAux fitS exs 0 h

lemma recordsList_ne_nil (fitS fitE : Int) (exs : List ExerciseData) :
    recordsList fitS fitE exs ≠ [] := by
  cases exs with
  | nil => simp [recordsList, recordsAux]
  | cons e rest =>
    unfold recordsList
    intro hcontra
    rcases List.append_eq_nil.mp hcontra with ⟨h1, _⟩
    exact recordsAux_ne_nil fitS 0 e rest h1

lemma getLast_recordsList (fitS fitE : Int) (exs : List ExerciseData)
    (h : totalDuration exs.dropLast ≤ fitE - fitS) :
    ∀ m ∈ (recordsList fitS fitE exs).getLast?, msgTime m ≤ fitE := by
  intro m hm
  unfold recordsList at hm
  by_cases hc : (exs.isEmpty || decide (fitS + totalDuration exs < fitE)) = true
  · rw [if_pos hc, List.getLast?_concat, Option.mem_def, Option.some.injEq] at hm
    subst hm
    simp [trailingRecord, msgTime]
  · rw [if_neg hc, List.append_nil] at hm
    have hne : exs ≠ [] := by
      intro he
      subst he
      simp at hc
    rw [getLast_recordsAux fitS exs 0 hne, Option.mem_def, Option.some.injEq] at hm
    subst hm
    simp [exerciseRecord, msgTime]
    omega

/-! ## Claims -/

/-- Claim C1, counterexample.  The claim states that the Records precede
the TimerEvent(stop) and that TimerEvent(stop) comes last.  For a concrete
session (start 1990-01-01T00:00:00Z, end one hour later, no exercises) the
generator's message sequence is FileIdentity, SessionSummary,
TimerEvent(start), TimerEvent(stop), and THEN the Record: the last message
is a Record, not the TimerEvent(stop). -/
theorem c1_counterexample :
    generateMsgs ⟨"Morning Workout", some "1990-01-01T00:00:00Z",
        some "1990-01-01T01:00:00Z", []⟩ =
      Except.ok
        [ Msg.fileId ⟨FileType.activity, Manufacturer.garmin, 12345, 305419896, 86400⟩,
          Msg.session ⟨86400, 0, 0, 3600, 3600, Sport.strengthTraining, Sport.generic,
            360, 0, 0, 0, 1, 90000, 0, Event.session, EventType.stop⟩,
          Msg.event ⟨86400, Event.timer, EventType.start⟩,
          Msg.event ⟨90000, Event.timer, EventType.stop⟩,
          Msg.record ⟨90000, 0, 0, none, none⟩ ] ∧
    (generateMsgs ⟨"Morning Workout", some "1990-01-01T00:00:00Z",
        some "1990-01-01T01:00:00Z", []⟩).map (fun l => l.getLast?.map isRecord) =
      Except.ok (some true) := by decide

/-- Claim C1, amended: the generator emits, in order, FileIdentity,
SessionSummary, TimerEvent(start), TimerEvent(stop), and then the Records
(TimerEvent(stop) precedes the Records rather than following them); the
Records are in non-decreasing timestamp order for sessions whose set
durations are non-negative. -/
theorem c1_message_order (sd ed : IsoDatetime) (exs : List ExerciseData)
    (h : ∀ e ∈ exs, ∀ s ∈ e.sets, 0 ≤ setDuration s) :
    generateFromParsed sd ed exs =
      [ Msg.fileId ⟨FileType.activity, Manufacturer.garmin, 12345, 305419896, fitSeconds sd⟩,
        Msg.session ⟨fitSeconds sd, 0, 0, fitSeconds ed - fitSeconds sd,
          fitSeconds ed - fitSeconds sd, Sport.strengthTraining, Sport.generic,
          Int.tdiv ((fitSeconds ed - fitSeconds sd) * 6) 60, 0, 0, 0, 1,
          fitSeconds ed, 0, Event.session, EventType.stop⟩,
        Msg.event ⟨fitSeconds sd, Event.timer, EventType.start⟩,
        Msg.event ⟨fitSeconds ed, Event.timer, EventType.stop⟩ ] ++
      recordsList (fitSeconds sd) (fitSeconds ed) exs ∧
    (∀ m ∈ recordsList (fitSeconds sd) (fitSeconds ed) exs, isRecord m = true) ∧
    List.Chain' (fun a b => msgTime a ≤ msgTime b)
      (recordsList (fitSeconds sd) (fitSeconds ed) exs) := by
  refine ⟨rfl, isRecord_recordsList _ _ _, chain_recordsList _ _ _ ?_⟩
  intro e he
  unfold exerciseDuration
  refine List.sum_nonneg ?_
  intro x hx
  rcases List.mem_map.mp hx with ⟨s, hs, rfl⟩
  exact h e he s hs

/-- Witness for `c1_message_order` at a concrete session with one
exercise. -/
theorem c1_message_order_witness :
    generateFromParsed ⟨1990, 1, 1, 0, 0, 0, some 0⟩ ⟨1990, 1, 1, 1, 0, 0, some 0⟩
        [⟨"Squat", [⟨some 5, some 100, some 60⟩]⟩] =
      [ Msg.fileId ⟨FileType.activity, Manufacturer.garmin, 12345, 305419896,
          fitSeconds ⟨1990, 1, 1, 0, 0, 0, some 0⟩⟩,
        Msg.session ⟨fitSeconds ⟨1990, 1, 1, 0, 0, 0, some 0⟩, 0, 0,
          fitSeconds ⟨1990, 1, 1, 1, 0, 0, some 0⟩ - fitSeconds ⟨1990, 1, 1, 0, 0, 0, some 0⟩,
          fitSeconds ⟨1990, 1, 1, 1, 0, 0, some 0⟩ - fitSeconds ⟨1990, 1, 1, 0, 0, 0, some 0⟩,
          Sport.strengthTraining, Sport.generic,
          Int.tdiv ((fitSeconds ⟨1990, 1, 1, 1, 0, 0, some 0⟩ -
            fitSeconds ⟨1990, 1, 1, 0, 0, 0, some 0⟩) * 6) 60, 0, 0, 0, 1,
          fitSeconds ⟨1990, 1, 1, 1, 0, 0, some 0⟩, 0, Event.session, EventType.stop⟩,
        Msg.event ⟨fitSeconds ⟨1990, 1, 1, 0, 0, 0, some 0⟩, Event.timer, EventType.start⟩,
        Msg.event ⟨fitSeconds ⟨1990, 1, 1, 1, 0, 0, some 0⟩, Event.timer, EventType.stop⟩ ] ++
      recordsList (fitSeconds ⟨1990, 1, 1, 0, 0, 0, some 0⟩)
        (fitSeconds ⟨1990, 1, 1, 1, 0, 0, some 0⟩) [⟨"Squat", [⟨some 5, some 100, some 60⟩]⟩] ∧
    (∀ m ∈ recordsList (fitSeconds ⟨1990, 1, 1, 0, 0, 0, some 0⟩)
        (fitSeconds ⟨1990, 1, 1, 1, 0, 0, some 0⟩) [⟨"Squat", [⟨some 5, some 100, some 60⟩]⟩],
      isRecord m = true) ∧
    List.Chain' (fun a b => msgTime a ≤ msgTime b)
      (recordsList (fitSeconds ⟨1990, 1, 1, 0, 0, 0, some 0⟩)
        (fitSeconds ⟨1990, 1, 1, 1, 0, 0, some 0⟩) [⟨"Squat", [⟨some 5, some 100, some 60⟩]⟩]) :=
  c1_message_order ⟨1990, 1, 1, 0, 0, 0, some 0⟩ ⟨1990, 1, 1, 1, 0, 0, some 0⟩
    [⟨"Squat", [⟨some 5, some 100, some 60⟩]⟩] (by decide)

/-- Claim C2, counterexample.  The claim states that a set with negative
repetitions or weight, or an end before the start, makes the encoder
return an error.  A session with a `reps = -1, weight = -5` set encodes
without error, and so does a session whose end precedes its start: the
generator performs no such validation (it never even reads `reps` or
`weight_lbs`). -/
theorem c2_counterexample :
    isOkB (generateMsgs ⟨"Neg", some "1990-01-01T00:00:00Z", some "1990-01-01T01:00:00Z",
      [⟨"Bench Press", [⟨some (-1), some (-5), some 60⟩]⟩]⟩) = true ∧
    isOkB (generateMsgs ⟨"Backwards", some "1990-01-01T01:00:00Z",
      some "1990-01-01T00:00:00Z", []⟩) = true := by decide

/-- Claim C2, amended: the message-construction level modelled here raises
no error for negative set values or for `end < start`; the generator fails
exactly when `start_time` or `end_time` is absent or fails ISO-8601
parsing. -/
theorem c2_no_validation (w : WorkoutData) :
    isOkB (generateMsgs w) =
      ((w.start_time.bind parseIso).isSome && (w.end_time.bind parseIso).isSome) := by
  cases hs : w.start_time with
  | none => simp [generateMsgs, isOkB, hs]
  | some ss =>
    cases he : w.end_time with
    | none => simp [generateMsgs, isOkB, hs, he]
    | some es =>
      cases hps : parseIso ss <;> cases hpe : parseIso es <;>
        simp [generateMsgs, isOkB, hs, he, hps, hpe]

/-- Claim C3, counterexample.  Workout B (start 00:01:40, i.e. instant
100) has an unparsable `end_time`, so encoding it fails; the claim says
the stored watermark should then equal the one of a pass without B,
namely 51.  The code stores 101: the accumulator is raised on lines 73-74
BEFORE encoding is attempted, so the failed session is not retried. -/
theorem c3_counterexample :
    generateMsgs ⟨"B", some "1970-01-01T00:01:40Z", some "garbage", []⟩ =
      Except.error "ValueError: invalid isoformat string" ∧
    (runPass 0 1000
      [⟨"A", some "1970-01-01T00:00:50Z", some "1970-01-01T00:01:00Z", []⟩,
       ⟨"B", some "1970-01-01T00:01:40Z", some "garbage", []⟩]).1 = 101 ∧
    (runPass 0 1000
      [⟨"A", some "1970-01-01T00:00:50Z", some "1970-01-01T00:01:00Z", []⟩]).1 = 51 ∧
    (101 : Int) ≠ 51 := by decide

/-- Claim C3, amended: the stored watermark of a pass is a function of the
`start_time` fields of the fetched batch alone — whether a session's
encoding or upload succeeds or fails has no influence on it, so a session
whose encoding fails DOES contribute its start to the next watermark and
is not retried on the next pass. -/
theorem c3_watermark_ignores_failures (W now : Int) (ws ws' : List WorkoutData)
    (h : ws.map (fun w => w.start_time) = ws'.map (fun w => w.start_time)) :
    (runPass W now ws).1 = (runPass W now ws').1 := by
  unfold runPass
  by_cases hws : ws = []
  · have hws' : ws' = [] := by
      have := h
      rw [hws] at this
      simpa using (List.map_eq_nil_iff.mp this.symm)
    rw [if_pos hws, if_pos hws']
  · have hws' : ws' ≠ [] := by
      intro hh
      apply hws
      rw [hh] at h
      simpa using (List.map_eq_nil_iff.mp h)
    rw [if_neg hws, if_neg hws']
    simp only
    rw [foldl_stepWorkout_fst, foldl_stepWorkout_fst,
      ← List.foldl_map (fun w : WorkoutData => w.start_time) (latestStep W) ws W,
      ← List.foldl_map (fun w : WorkoutData => w.start_time) (latestStep W) ws' W, h]

/-- Witness for `c3_watermark_ignores_failures`: a session whose
`end_time` makes encoding fail yields the same stored watermark as one
that encodes fine. -/
theorem c3_watermark_ignores_failures_witness :
    (runPass 0 1000 [⟨"B", some "1970-01-01T00:01:40Z",
        some "1970-01-01T00:02:00Z", []⟩]).1 =
    (runPass 0 1000 [⟨"B", some "1970-01-01T00:01:40Z", some "garbage", []⟩]).1 :=
  c3_watermark_ignores_failures 0 1000 _ _ (by decide)

/-- Claim C4, counterexample.  The claim states that the encoder returns
the encoded byte sequence, not a file path, and creates no file.  At a
concrete session, the returned value is the string
`temp_fit_files/hevy_strength_workout_19900101_000000.fit` — a path — and
the file system after the call differs from the (empty) one before it. -/
theorem c4_counterexample :
    (generate_strength_activity_fit ⟨"Morning Workout", some "1990-01-01T00:00:00Z",
        some "1990-01-01T01:00:00Z", []⟩ "temp_fit_files" []).map Prod.fst =
      Except.ok "temp_fit_files/hevy_strength_workout_19900101_000000.fit" ∧
    (generate_strength_activity_fit ⟨"Morning Workout", some "1990-01-01T00:00:00Z",
        some "1990-01-01T01:00:00Z", []⟩ "temp_fit_files" []).map Prod.snd ≠
      Except.ok ([] : FileSys) := by decide

/-- Claim C4, amended: the encoder's message content is a deterministic
pure function of the session alone (`generateMsgs`; no wall clock is read
— the creation timestamp is the session start), but the operation is not
effect-free: it appends exactly one new file, named from the session start
time, to the output directory and returns that file's PATH, not the
bytes. -/
theorem c4_writes_file_returns_path (w : WorkoutData) (dir : String) (fs : FileSys) :
    generate_strength_activity_fit w dir fs =
      (generateMsgs w).map (fun msgs =>
        let path := dir ++ "/" ++ ((w.start_time.bind parseIso).map fitFileName).getD ""
        (path, fs ++ [(path, msgs)])) := by
  cases hs : w.start_time with
  | none => simp [generate_strength_activity_fit, generateMsgs, Except.map, hs]
  | some ss =>
    cases he : w.end_time with
    | none => simp [generate_strength_activity_fit, generateMsgs, Except.map, hs, he]
    | some es =>
      cases hps : parseIso ss <;> cases hpe : parseIso es <;>
        simp [generate_strength_activity_fit, generateMsgs, Except.map, hs, he, hps, hpe]

/-- Claim C5, counterexample.  The claim states that the
`max(current, max accepted start) + 1 second` formula holds also for an
empty fetched batch, which would give watermark `W + 1`.  With watermark
100 and `current_time` 5000, an empty batch stores 5000 (lines 54-57 store
`current_time`), not 101. -/
theorem c5_counterexample :
    (runPass 100 5000 []).1 = 5000 ∧
    nextWatermark 100 (acceptedStarts 100 []) = 101 ∧
    (5000 : Int) ≠ 101 := by decide

/-- Claim C5, amended: for a NON-empty fetched batch the stored watermark
is exactly `max(watermark read, max start over accepted sessions) + 1
second`; for an empty batch the stored watermark is instead the
`current_time` captured at pass start. -/
theorem c5_next_watermark (W now : Int) (ws : List WorkoutData) :
    (ws = [] → (runPass W now ws).1 = now) ∧
    (ws ≠ [] → (runPass W now ws).1 = nextWatermark W (acceptedStarts W ws)) := by
  constructor
  · intro h
    subst h
    rfl
  · intro h
    exact runPass_fst W now ws h

/-- Witness for `c5_next_watermark` on the documented scenario: watermark
2024-06-01T00:00:00Z (instant 1717200000), fetched starts
2024-05-31T23:59:59Z (rejected) and 2024-06-02T08:00:00Z (accepted); the
stored watermark is 1717315201 = 2024-06-02T08:00:01Z. -/
theorem c5_next_watermark_witness :
    (runPass 1717200000 1718000000
      [⟨"May", some "2024-05-31T23:59:59Z", some "2024-06-01T01:00:00Z", []⟩,
       ⟨"June", some "2024-06-02T08:00:00Z", some "2024-06-02T09:00:00Z", []⟩]).1 =
      1717315201 ∧
    (parseIso "2024-06-01T00:00:00Z").map IsoDatetime.base = some 1717200000 ∧
    (parseIso "2024-06-02T08:00:01Z").map IsoDatetime.base = some 1717315201 := by
  refine ⟨?_, by decide, by decide⟩
  rw [(c5_next_watermark 1717200000 1718000000
    [⟨"May", some "2024-05-31T23:59:59Z", some "2024-06-01T01:00:00Z", []⟩,
     ⟨"June", some "2024-06-02T08:00:00Z", some "2024-06-02T09:00:00Z", []⟩]).2 (by decide)]
  decide

/-- Claim C6 (confirmed): the filter accepts a session exactly when its
start is strictly greater than the watermark; any start occurring in the
list fed to `next_watermark` — in particular any accepted start of a
non-empty pass — is rejected when filtered again against the new
watermark. -/
theorem c6_accept_strict_and_idempotent :
    (∀ t W : Int, accept t W = true ↔ W < t) ∧
    (∀ (W : Int) (starts : List Int) (t : Int), t ∈ starts →
      accept t (nextWatermark W starts) = false) ∧
    (∀ (W now : Int) (ws : List WorkoutData) (t : Int), ws ≠ [] →
      t ∈ acceptedStarts W ws → accept t ((runPass W now ws).1) = false) := by
  refine ⟨accept_true_iff, ?_, ?_⟩
  · intro W starts t ht
    rw [accept_false_iff]
    unfold nextWatermark
    have := mem_le_foldl_max starts W t ht
    omega
  · intro W now ws t hne ht
    rw [runPass_fst W now ws hne, accept_false_iff]
    unfold nextWatermark
    have := mem_le_foldl_max (acceptedStarts W ws) W t ht
    omega

/-- Witness for `c6_accept_strict_and_idempotent` at concrete inputs. -/
theorem c6_accept_strict_and_idempotent_witness :
    accept 5 3 = true ∧
    accept 5 (nextWatermark 3 [5]) = false ∧
    accept 50 ((runPass 0 1000
      [⟨"A", some "1970-01-01T00:00:50Z", some "1970-01-01T00:01:00Z", []⟩]).1) = false :=
  ⟨(c6_accept_strict_and_idempotent.1 5 3).mpr (by decide),
   c6_accept_strict_and_idempotent.2.1 3 [5] 5 (by decide),
   c6_accept_strict_and_idempotent.2.2 0 1000
     [⟨"A", some "1970-01-01T00:00:50Z", some "1970-01-01T00:01:00Z", []⟩] 50
     (by decide) (by decide)⟩

/-- Claim C7, counterexample.  The claim states the final Record timestamp
never exceeds the session end.  For a 30-second session (end FIT instant
86430) with two exercises of one 60-second set each, the last emitted
Record sits at FIT instant 86460 — beyond the session end — and no
trailing Record corrects it, because line 129 only fires when the
accumulated offset stops SHORT of the end. -/
theorem c7_counterexample :
    (generateMsgs ⟨"Overshoot", some "1990-01-01T00:00:00Z", some "1990-01-01T00:00:30Z",
        [⟨"Squat", [⟨some 5, some 100, some 60⟩]⟩,
         ⟨"Curl", [⟨some 5, some 20, some 60⟩]⟩]⟩).map
        (fun l => l.getLast?.map msgTime) = Except.ok (some 86460) ∧
    (generateMsgs ⟨"Overshoot", some "1990-01-01T00:00:00Z", some "1990-01-01T00:00:30Z",
        [⟨"Squat", [⟨some 5, some 100, some 60⟩]⟩,
         ⟨"Curl", [⟨some 5, some 20, some 60⟩]⟩]⟩).map
        (fun l => l.getLast?.map isRecord) = Except.ok (some true) ∧
    (parseIso "1990-01-01T00:00:30Z").map (fun d => d.base - garminEpochUnix) =
      some 86430 ∧
    (86430 : Int) < 86460 := by decide

/-- Claim C7, amended: the generator always emits at least one Record; a
session with zero exercises produces exactly one Record, at the session
end timestamp; and the final Record's timestamp does not exceed the
session end PROVIDED the durations accumulated before the last exercise
fit within the session duration (without that proviso the last
per-exercise Record can overshoot the session end). -/
theorem c7_records (sd ed : IsoDatetime) (exs : List ExerciseData) :
    (generateFromParsed sd ed exs).drop 4 =
      recordsList (fitSeconds sd) (fitSeconds ed) exs ∧
    recordsList (fitSeconds sd) (fitSeconds ed) exs ≠ [] ∧
    (exs = [] → recordsList (fitSeconds sd) (fitSeconds ed) exs =
      [trailingRecord (fitSeconds ed)]) ∧
    (totalDuration exs.dropLast ≤ fitSeconds ed - fitSeconds sd →
      ∀ m ∈ (recordsList (fitSeconds sd) (fitSeconds ed) exs).getLast?,
        msgTime m ≤ fitSeconds ed) := by
  refine ⟨rfl, recordsList_ne_nil _ _ _, ?_, getLast_recordsList _ _ _⟩
  intro h
  subst h
  simp [recordsList, recordsAux]

/-- Witness for `c7_records` at a concrete zero-exercise session. -/
theorem c7_records_witness :
    recordsList (fitSeconds ⟨1990, 1, 1, 0, 0, 0, some 0⟩)
        (fitSeconds ⟨1990, 1, 1, 1, 0, 0, some 0⟩) [] =
      [trailingRecord (fitSeconds ⟨1990, 1, 1, 1, 0, 0, some 0⟩)] ∧
    (∀ m ∈ (recordsList (fitSeconds ⟨1990, 1, 1, 0, 0, 0, some 0⟩)
        (fitSeconds ⟨1990, 1, 1, 1, 0, 0, some 0⟩) []).getLast?,
      msgTime m ≤ fitSeconds ⟨1990, 1, 1, 1, 0, 0, some 0⟩) :=
  ⟨(c7_records ⟨1990, 1, 1, 0, 0, 0, some 0⟩ ⟨1990, 1, 1, 1, 0, 0, some 0⟩ []).2.2.1 rfl,
   (c7_records ⟨1990, 1, 1, 0, 0, 0, some 0⟩ ⟨1990, 1, 1, 1, 0, 0, some 0⟩ []).2.2.2
     (by decide)⟩

/-- Claim C8, counterexample.  The claim states the stored watermark never
decreases across passes.  A pass that reads watermark 5001 (reachable: a
previous pass accepting a future-dated session start 5000 stores 5001) and
fetches an empty batch at `current_time` 2000 stores 2000 < 5001. -/
theorem c8_counterexample :
    (runPass 5001 2000 []).1 = 2000 ∧ (2000 : Int) < 5001 := by decide

/-- Claim C8, amended: the stored watermark is never below the one read at
pass start whenever the fetched batch is non-empty, or the batch is empty
and the pass's `current_time` is not behind the watermark read (an empty
batch stores `current_time` itself, which is below a watermark that lies
in the future). -/
theorem c8_monotone (W now : Int) (ws : List WorkoutData)
    (h : ws ≠ [] ∨ W ≤ now) : W ≤ (runPass W now ws).1 := by
  by_cases hws : ws = []
  · subst hws
    rcases h with h | h
    · exact absurd rfl h
    · simpa [runPass] using h
  · rw [runPass_fst W now ws hws]
    unfold nextWatermark
    have := le_foldl_max (acceptedStarts W ws) W
    omega

/-- Witness for `c8_monotone`: an empty pass with `current_time` ahead of
the watermark, and a non-empty pass. -/
theorem c8_monotone_witness :
    (0 : Int) ≤ (runPass 0 50 []).1 ∧
    (0 : Int) ≤ (runPass 0 1000
      [⟨"A", some "1970-01-01T00:00:50Z", some "1970-01-01T00:01:00Z", []⟩]).1 :=
  ⟨c8_monotone 0 50 [] (Or.inr (by decide)),
   c8_monotone 0 1000 [⟨"A", some "1970-01-01T00:00:50Z", some "1970-01-01T00:01:00Z", []⟩]
     (Or.inl (by decide))⟩

/-- Claim C9 (confirmed): a parsed `start_time`/`end_time` carrying no
timezone offset is stamped UTC before the epoch arithmetic (lines 44-47),
so its instant is its clock reading taken as UTC and the generator's
output for naive inputs coincides with the output for the same clock
readings made explicitly UTC-aware. -/
theorem c9_naive_as_utc (sd ed : IsoDatetime) (exs : List ExerciseData)
    (hs : sd.tz = none) (he : ed.tz = none) :
    (ensureUTC sd).instant = sd.base ∧
    generateFromParsed sd ed exs =
      generateFromParsed { sd with tz := some 0 } { ed with tz := some 0 } exs := by
  constructor
  · unfold ensureUTC
    rw [hs]
    simp [IsoDatetime.instant, IsoDatetime.base]
  · unfold generateFromParsed fitSeconds ensureUTC
    rw [hs, he]

/-- Witness for `c9_naive_as_utc` at concrete naive datetimes. -/
theorem c9_naive_as_utc_witness :
    (ensureUTC ⟨2024, 1, 1, 10, 0, 0, none⟩).instant =
      IsoDatetime.base ⟨2024, 1, 1, 10, 0, 0, none⟩ ∧
    generateFromParsed ⟨2024, 1, 1, 10, 0, 0, none⟩ ⟨2024, 1, 1, 11, 0, 0, none⟩ [] =
      generateFromParsed ⟨2024, 1, 1, 10, 0, 0, some 0⟩ ⟨2024, 1, 1, 11, 0, 0, some 0⟩ [] :=
  c9_naive_as_utc ⟨2024, 1, 1, 10, 0, 0, none⟩ ⟨2024, 1, 1, 11, 0, 0, none⟩ [] rfl rfl

/-- Claim C10, counterexample.  The claim's dichotomy says a PRESENT but
unparsable `start_time` is skipped without encode or upload.  A present
but EMPTY `start_time` is unparsable, yet — being falsy in the line-65
guard — it bypasses the filter and the workout is attempted for
encode/upload even against an arbitrarily large watermark. -/
theorem c10_counterexample :
    parseIso "" = none ∧
    (runPass 1000000 99 [⟨"E", some "", some "1970-01-01T00:01:00Z", []⟩]).2 =
      [⟨"E", some "", some "1970-01-01T00:01:00Z", []⟩] := by decide

/-- Claim C10, amended: a workout whose `start_time` is absent OR the
empty string bypasses the watermark filter — it is always attempted for
encode/upload and leaves the `latest_workout_time` accumulator untouched;
a workout whose `start_time` is present, non-empty and unparsable is
skipped without encode or upload. -/
theorem c10_filter_bypass (W lat : Int) (att : List WorkoutData) (w : WorkoutData) :
    (w.start_time = none → stepWorkout W (lat, att) w = (lat, att ++ [w])) ∧
    (w.start_time = some "" → stepWorkout W (lat, att) w = (lat, att ++ [w])) ∧
    (∀ s, w.start_time = some s → s ≠ "" → parseIso s = none →
      stepWorkout W (lat, att) w = (lat, att)) := by
  refine ⟨?_, ?_, ?_⟩
  · intro h
    simp [stepWorkout, h]
  · intro h
    simp [stepWorkout, h]
  · intro s h hne hp
    simp [stepWorkout, h, hne, hp]

/-- Witness for `c10_filter_bypass` at concrete workouts. -/
theorem c10_filter_bypass_witness :
    stepWorkout 7 (3, []) ⟨"X", none, some "e", []⟩ = (3, [⟨"X", none, some "e", []⟩]) ∧
    stepWorkout 7 (3, []) ⟨"Y", some "", some "e", []⟩ = (3, [⟨"Y", some "", some "e", []⟩]) ∧
    stepWorkout 7 (3, []) ⟨"Z", some "nope", some "e", []⟩ = (3, []) :=
  ⟨(c10_filter_bypass 7 3 [] ⟨"X", none, some "e", []⟩).1 rfl,
   (c10_filter_bypass 7 3 [] ⟨"Y", some "", some "e", []⟩).2.1 rfl,
   (c10_filter_bypass 7 3 [] ⟨"Z", some "nope", some "e", []⟩).2.2 "nope" rfl
     (by decide) (by decide)⟩

end HevySync



